import Mathlib

/-
Shallow embedding of the kolam path-generation algorithms of
src/utils/kolam_algorithms.py (classes KolamDrawV1 and KolamDrawV2).

Modelling conventions:
- the numpy matrices A (gate), F (flag) and visited only ever hold the
  values 0, 1 and 99, so they are embedded as total functions
  ZZ -> ZZ -> Nat (Bool for visited); the walkers only read entries at
  indices the source guarantees to be in range 0..ND, so the value of
  the embedding outside that square is never consulted;
- randomness is an explicit stream passed to each walker: for V1 a
  stream of rational draws (the np.random.random() values), for V2 a
  stream of naturals, reduced mod the requested range to model
  np.random.randint; a counter k threaded through the computation
  indexes the stream, advancing once per random draw of the source;
- a Python loop `for step in range(n)` becomes fuel recursion with
  fuel n: each recursive step is one loop iteration, `break` returns
  early, falling off the fuel ends the loop.
-/

namespace KolamDrawV1

/-- Boundary predicate KolamDrawV1.is_inside_boundary for the diamond
boundary type: |i - ND//2| + |j - ND//2| <= ND//2. -/
def is_inside_boundary (ND : ℕ) (i j : ℤ) : Bool :=
  decide (|i - (ND : ℤ) / 2| + |j - (ND : ℤ) / 2| ≤ (ND : ℤ) / 2)

/-- Pointwise result of KolamDrawV1.ResetGateMatrix: A starts as
ones*99 and F as ones, then the loop over i in range(Nx) zeroes row 0,
column 0, row Nx-1 and column Nx-1 of both matrices (Nx = ND+1). -/
def ResetGateMatrix (ND : ℕ) : (ℤ → ℤ → ℕ) × (ℤ → ℤ → ℕ) :=
  (fun i j => if i = 0 ∨ j = 0 ∨ i = (ND : ℤ) ∨ j = (ND : ℤ) then 0 else 99,
   fun i j => if i = 0 ∨ j = 0 ∨ i = (ND : ℤ) ∨ j = (ND : ℤ) then 0 else 1)

/-- KolamDrawV1.toss applied to the uniform draw u taken from the
random stream: returns 1 if u > bias else 0. -/
def toss (bias u : ℚ) : ℕ :=
  if u > bias then 1 else 0

/-- KolamDrawV1.xyng: directions = [(1,1),(1,-1),(-1,-1),(-1,1)],
(di,dj) = directions[theta % 4], result (isv+di, jsv+dj).  The list
indexing becomes a match on theta % 4; the matrix argument A is
unused, as in the source. -/
def xyng (isv jsv : ℤ) (A : ℤ → ℤ → ℕ) (theta : ℕ) : ℤ × ℤ :=
  let d : ℤ × ℤ :=
    match theta % 4 with
    | 0 => (1, 1)
    | 1 => (1, -1)
    | 2 => (-1, -1)
    | _ => (-1, 1)
  (isv + d.1, jsv + d.2)

/-- Walk loop of KolamDrawV1.generate_path: for step in range(Ns),
break when the current cell is outside the boundary, append the cell,
at an open gate (A > 0) turn using a toss draw, advance with xyng, and
break once the path holds more than 10 points and the advanced
position equals the first point of the path.  Python's (theta - 1) % 4
is written (theta + 3) % 4, which agrees on the range 0..3 that theta
inhabits here.  k indexes the random stream. -/
def v1Loop (ND : ℕ) (A : ℤ → ℤ → ℕ) (sigmaref : ℚ) (rnd : ℕ → ℚ) :
    ℕ → ℤ → ℤ → ℕ → List (ℤ × ℤ) → ℕ → List (ℤ × ℤ)
  | 0, _, _, _, path, _ => path
  | fuel + 1, isv, jsv, theta, path, k =>
    if is_inside_boundary ND isv jsv = false then path
    else
      let path1 := path ++ [(isv, jsv)]
      let tk : ℕ × ℕ :=
        if 0 < A isv jsv then
          (if toss sigmaref (rnd k) = 1 then (theta + 1) % 4 else (theta + 3) % 4,
           k + 1)
        else (theta, k)
      let nxt := xyng isv jsv A tk.1
      if 10 < path1.length ∧ path1.head? = some nxt then path1
      else v1Loop ND A sigmaref rnd fuel nxt.1 nxt.2 tk.1 path1 tk.2

/-- Step budget Ns = (2 * ND**2 + 1) * 5 of KolamDrawV1. -/
def Ns (ND : ℕ) : ℕ := (2 * ND ^ 2 + 1) * 5

/-- Point list recorded by the walk loop of KolamDrawV1.generate_path
from the center start (ND//2, ND//2), before the empty-path
substitution. -/
def rawPath (ND : ℕ) (sigmaref : ℚ) (rnd : ℕ → ℚ) : List (ℤ × ℤ) :=
  v1Loop ND (ResetGateMatrix ND).1 sigmaref rnd (Ns ND)
    ((ND : ℤ) / 2) ((ND : ℤ) / 2) 0 [] 0

/-- KolamDrawV1.generate_path: run the walk and substitute the single
center point [[ND//2, ND//2]] when no point was recorded. -/
def generate_path (ND : ℕ) (sigmaref : ℚ) (rnd : ℕ → ℚ) : List (ℤ × ℤ) :=
  if rawPath ND sigmaref rnd = [] then [((ND : ℤ) / 2, (ND : ℤ) / 2)]
  else rawPath ND sigmaref rnd

end KolamDrawV1

namespace KolamDrawV2

/-- Pointwise result of KolamDrawV2.ResetGateMatrix: the boundary rows
and columns are zeroed exactly as in V1, then the loop over i in
range(1, Nx-1) assigns A[i,i] = A[i, Nx-1-i] = 1 and
F[i,i] = F[i, Nx-1-i] = 0; an interior cell (i,j) lies on one of the
two diagonals iff i = j or i + j = ND. -/
def ResetGateMatrix (ND : ℕ) : (ℤ → ℤ → ℕ) × (ℤ → ℤ → ℕ) :=
  (fun i j =>
     if i = 0 ∨ j = 0 ∨ i = (ND : ℤ) ∨ j = (ND : ℤ) then 0
     else if i = j ∨ i + j = (ND : ℤ) then 1 else 99,
   fun i j =>
     if i = 0 ∨ j = 0 ∨ i = (ND : ℤ) ∨ j = (ND : ℤ) then 0
     else if i = j ∨ i + j = (ND : ℤ) then 0 else 1)

/-- KolamDrawV2.toss applied to the stream draw r: the source draws
np.random.randint(0, 1000), modelled as r % 1000, and returns 1 if
(r % 1000) / 1000 > bias else 0. -/
def toss (bias : ℚ) (r : ℕ) : ℕ :=
  if ((r % 1000 : ℕ) : ℚ) / 1000 > bias then 1 else 0

/-- Step budget Ns = 2 * (ND**2 + 1) + 5 of KolamDrawV2. -/
def Ns (ND : ℕ) : ℕ := 2 * (ND ^ 2 + 1) + 5

/-- KolamDrawV2.get_valid_moves: of the 8 king-move neighbours of
(i, j), in the fixed direction order of the source, those that are
strictly interior (0 < n < Nx - 1 = ND), unvisited and open
(A > 0). -/
def get_valid_moves (ND : ℕ) (i j : ℤ) (A : ℤ → ℤ → ℕ)
    (visited : ℤ → ℤ → Bool) : List (ℤ × ℤ) :=
  [((0 : ℤ), (1 : ℤ)), (1, 0), (0, -1), (-1, 0),
    (1, 1), (-1, -1), (1, -1), (-1, 1)].filterMap
    (fun d =>
      let ni := i + d.1
      let nj := j + d.2
      if 0 < ni ∧ ni < (ND : ℤ) ∧ 0 < nj ∧ nj < (ND : ℤ) ∧
          visited ni nj = false ∧ 0 < A ni nj then
        some (ni, nj)
      else none)

/-- KolamDrawV2.generate_single_path: grow one stroke from
(start_i, start_j) through at most fuel = Ns // 4 loop iterations.
Each iteration breaks when the current cell is outside the open
interior, already visited or closed; otherwise appends the cell,
breaks when no valid move remains, and moves on: when several
candidates exist, a toss draw decides between the randint(len)-th
candidate (modelled as the next stream draw mod length, two draws
consumed) and the first candidate (one draw consumed); a single
candidate is taken without drawing.  Returns the stroke and the
next stream index.  The getD defaults are never selected: the move
list is nonempty there and the random index is reduced mod its
length.  The flag matrix F is passed and unused, as in the source. -/
def generate_single_path (ND : ℕ) (A F : ℤ → ℤ → ℕ) (visited : ℤ → ℤ → Bool)
    (sigmaref : ℚ) (rnd : ℕ → ℕ) :
    ℕ → ℤ → ℤ → ℕ → List (ℤ × ℤ) × ℕ
  | 0, _, _, k => ([], k)
  | fuel + 1, isv, jsv, k =>
    if isv ≤ 0 ∨ (ND : ℤ) ≤ isv ∨ jsv ≤ 0 ∨ (ND : ℤ) ≤ jsv ∨
        visited isv jsv = true ∨ A isv jsv = 0 then
      ([], k)
    else
      let moves := get_valid_moves ND isv jsv A visited
      if moves = [] then ([(isv, jsv)], k)
      else
        let sel : (ℤ × ℤ) × ℕ :=
          if 1 < moves.length then
            if toss sigmaref (rnd k) = 1 then
              (moves.getD (rnd (k + 1) % moves.length) (isv, jsv), k + 2)
            else (moves.getD 0 (isv, jsv), k + 1)
          else (moves.getD 0 (isv, jsv), k)
        let rest :=
          generate_single_path ND A F visited sigmaref rnd fuel sel.1.1 sel.1.2 sel.2
        ((isv, jsv) :: rest.1, rest.2)

/-- State threaded through the start-cell scan of
KolamDrawV2.generate_path: the accumulated flat point list, the
visited matrix, the accepted-stroke counter and the random stream
index.  The strokes field is a specification ghost recording each
accepted stroke separately; all_paths is exactly their flattened
concatenation as accumulated by the source. -/
structure ScanState where
  all_paths : List (ℤ × ℤ)
  visited : ℤ → ℤ → Bool
  stroke_count : ℕ
  k : ℕ
  strokes : List (List (ℤ × ℤ))

/-- Mark-visited loop run on an accepted stroke: for each point, when
0 <= i < Nx and 0 <= j < Nx, set visited[i, j] = 1. -/
def markVisited (ND : ℕ) (visited : ℤ → ℤ → Bool) (path : List (ℤ × ℤ)) :
    ℤ → ℤ → Bool :=
  path.foldl
    (fun v point =>
      if 0 ≤ point.1 ∧ point.1 ≤ (ND : ℤ) ∧ 0 ≤ point.2 ∧ point.2 ≤ (ND : ℤ) then
        fun i j => if i = point.1 ∧ j = point.2 then true else v i j
      else v)
    visited

/-- Row-major list of candidate start cells (start_i, start_j),
1 <= start_i, start_j <= ND - 1, as enumerated by the two nested
loops for start_i in range(1, Nx-1), for start_j in range(1, Nx-1). -/
def startCells (ND : ℕ) : List (ℤ × ℤ) :=
  (List.range (ND - 1)).flatMap
    (fun a => (List.range (ND - 1)).map (fun b => ((a : ℤ) + 1, (b : ℤ) + 1)))

/-- Body of the start-cell scan of KolamDrawV2.generate_path for one
candidate cell: once stroke_count has reached max_strokes =
min(10, ND) every remaining cell is skipped (the break), a visited or
closed start cell is skipped (the continue); otherwise one stroke is
grown, and a stroke of more than 3 points is appended to all_paths,
counted and marked visited, while a shorter one is discarded (the
random stream index advances either way, the state is otherwise
untouched). -/
def processCell (ND : ℕ) (sigmaref : ℚ) (rnd : ℕ → ℕ) (s : ScanState)
    (c : ℤ × ℤ) : ScanState :=
  if min 10 ND ≤ s.stroke_count then s
  else if s.visited c.1 c.2 = true ∨ (ResetGateMatrix ND).1 c.1 c.2 = 0 then s
  else
    let pr := generate_single_path ND (ResetGateMatrix ND).1 (ResetGateMatrix ND).2
      s.visited sigmaref rnd (Ns ND / 4) c.1 c.2 s.k
    if 3 < pr.1.length then
      { all_paths := s.all_paths ++ pr.1
        visited := markVisited ND s.visited pr.1
        stroke_count := s.stroke_count + 1
        k := pr.2
        strokes := s.strokes ++ [pr.1] }
    else { s with k := pr.2 }

/-- Initial scan state: empty accumulated path, all-false visited
matrix, zero accepted strokes, stream index 0. -/
def initialScanState : ScanState :=
  { all_paths := [], visited := fun _ _ => false, stroke_count := 0, k := 0,
    strokes := [] }

/-- Final state of the start-cell scan of KolamDrawV2.generate_path. -/
def scanFinal (ND : ℕ) (sigmaref : ℚ) (rnd : ℕ → ℕ) : ScanState :=
  (startCells ND).foldl (processCell ND sigmaref rnd) initialScanState

/-- KolamDrawV2.generate_path: run the scan over all start cells and
substitute the single center point [[ND//2, ND//2]] when no stroke
was accepted. -/
def generate_path (ND : ℕ) (sigmaref : ℚ) (rnd : ℕ → ℕ) : List (ℤ × ℤ) :=
  if (scanFinal ND sigmaref rnd).all_paths = [] then
    [((ND : ℤ) / 2, (ND : ℤ) / 2)]
  else (scanFinal ND sigmaref rnd).all_paths

end KolamDrawV2

/-- Disjointness of two strokes: no point of the first one occurs in
the second one. -/
def StrokesDisjoint (a b : List (ℤ × ℤ)) : Prop := ∀ p ∈ a, p ∉ b

/-- Invariant maintained by the V2 start-cell scan: every point of an
accepted stroke is marked visited, accepted strokes are pairwise
disjoint, all_paths is the flattened stroke list, every accumulated
point is strictly interior, and the stroke counter is bounded by
min(10, ND) and counts exactly the accepted strokes. -/
def ScanInv (ND : ℕ) (s : KolamDrawV2.ScanState) : Prop :=
  (∀ st ∈ s.strokes, ∀ p ∈ st, s.visited p.1 p.2 = true) ∧
  List.Pairwise StrokesDisjoint s.strokes ∧
  s.all_paths = s.strokes.flatten ∧
  (∀ p ∈ s.all_paths, 0 < p.1 ∧ p.1 < (ND : ℤ) ∧ 0 < p.2 ∧ p.2 < (ND : ℤ)) ∧
  s.stroke_count ≤ min 10 ND ∧
  s.stroke_count = s.strokes.length

/-- Every point in the accumulated V1 path stays inside the diamond
boundary: the loop only appends the current cell after the boundary
check succeeded. -/
theorem v1Loop_mem (ND : ℕ) (A : ℤ → ℤ → ℕ) (sigmaref : ℚ) (rnd : ℕ → ℚ) :
    ∀ (fuel : ℕ) (isv jsv : ℤ) (theta : ℕ) (path : List (ℤ × ℤ)) (k : ℕ),
      (∀ p ∈ path, KolamDrawV1.is_inside_boundary ND p.1 p.2 = true) →
      ∀ p ∈ KolamDrawV1.v1Loop ND A sigmaref rnd fuel isv jsv theta path k,
        KolamDrawV1.is_inside_boundary ND p.1 p.2 = true := by
  intro fuel
  induction fuel with
  | zero =>
    intro isv jsv theta path k hpath p hp
    rw [KolamDrawV1.v1Loop] at hp
    exact hpath p hp
  | succ n ih =>
    intro isv jsv theta path k hpath p hp
    rw [KolamDrawV1.v1Loop] at hp
    by_cases hb : KolamDrawV1.is_inside_boundary ND isv jsv = false
    · rw [if_pos hb] at hp
      exact hpath p hp
    · rw [if_neg hb] at hp
      have hbt : KolamDrawV1.is_inside_boundary ND isv jsv = true := by
        cases hv : KolamDrawV1.is_inside_boundary ND isv jsv
        · exact absurd hv hb
        · rfl
      have hpath1 : ∀ q ∈ path ++ [(isv, jsv)],
          KolamDrawV1.is_inside_boundary ND q.1 q.2 = true := by
        intro q hq
        rcases List.mem_append.mp hq with h1 | h2
        · exact hpath q h1
        · have hq2 : q = (isv, jsv) := List.mem_singleton.mp h2
          rw [hq2]
          exact hbt
      dsimp only at hp
      repeat' split at hp
      all_goals
        first
          | exact hpath1 p hp
          | exact ih _ _ _ _ _ hpath1 p hp

/-- The V1 walk loop appends at most one point per unit of fuel. -/
theorem v1Loop_len (ND : ℕ) (A : ℤ → ℤ → ℕ) (sigmaref : ℚ) (rnd : ℕ → ℚ) :
    ∀ (fuel : ℕ) (isv jsv : ℤ) (theta : ℕ) (path : List (ℤ × ℤ)) (k : ℕ),
      (KolamDrawV1.v1Loop ND A sigmaref rnd fuel isv jsv theta path k).length ≤
        path.length + fuel := by
  intro fuel
  induction fuel with
  | zero =>
    intro isv jsv theta path k
    rw [KolamDrawV1.v1Loop]
    omega
  | succ n ih =>
    intro isv jsv theta path k
    rw [KolamDrawV1.v1Loop]
    split
    · omega
    · dsimp only
      repeat' split
      all_goals
        first
          | (simp only [List.length_append, List.length_singleton]; omega)
          | (refine le_trans (ih _ _ _ _ _) ?_
             simp only [List.length_append, List.length_singleton]
             omega)

/-- Every point of a stroke grown by generate_single_path is strictly
interior, unvisited with respect to the visited matrix the stroke was
started with, and open in the gate matrix: each appended cell has just
passed the guard at the top of the growth loop. -/
theorem gsp_mem (ND : ℕ) (A F : ℤ → ℤ → ℕ) (visited : ℤ → ℤ → Bool)
    (sigmaref : ℚ) (rnd : ℕ → ℕ) :
    ∀ (fuel : ℕ) (isv jsv : ℤ) (k : ℕ),
      ∀ p ∈ (KolamDrawV2.generate_single_path ND A F visited sigmaref rnd
        fuel isv jsv k).1,
        0 < p.1 ∧ p.1 < (ND : ℤ) ∧ 0 < p.2 ∧ p.2 < (ND : ℤ) ∧
          visited p.1 p.2 = false ∧ A p.1 p.2 ≠ 0 := by
  intro fuel
  induction fuel with
  | zero =>
    intro isv jsv k p hp
    rw [KolamDrawV2.generate_single_path] at hp
    simp at hp
  | succ n ih =>
    intro isv jsv k p hp
    rw [KolamDrawV2.generate_single_path] at hp
    by_cases hg : isv ≤ 0 ∨ (ND : ℤ) ≤ isv ∨ jsv ≤ 0 ∨ (ND : ℤ) ≤ jsv ∨
        visited isv jsv = true ∨ A isv jsv = 0
    · rw [if_pos hg] at hp
      simp at hp
    · rw [if_neg hg] at hp
      push_neg at hg
      obtain ⟨g1, g2, g3, g4, g5, g6⟩ := hg
      have hcur : 0 < isv ∧ isv < (ND : ℤ) ∧ 0 < jsv ∧ jsv < (ND : ℤ) ∧
          visited isv jsv = false ∧ A isv jsv ≠ 0 := by
        refine ⟨by omega, by omega, by omega, by omega, ?_, g6⟩
        cases hv : visited isv jsv
        · rfl
        · exact absurd hv g5
      dsimp only at hp
      repeat' split at hp
      all_goals
        rcases List.mem_cons.mp hp with h1 | h2
      all_goals
        first
          | (subst h1; exact hcur)
          | (exact absurd h2 (List.not_mem_nil p))
          | (exact ih _ _ _ p h2)

/-- A stroke grown by generate_single_path holds at most one point per
unit of fuel. -/
theorem gsp_len (ND : ℕ) (A F : ℤ → ℤ → ℕ) (visited : ℤ → ℤ → Bool)
    (sigmaref : ℚ) (rnd : ℕ → ℕ) :
    ∀ (fuel : ℕ) (isv jsv : ℤ) (k : ℕ),
      (KolamDrawV2.generate_single_path ND A F visited sigmaref rnd
        fuel isv jsv k).1.length ≤ fuel := by
  intro fuel
  induction fuel with
  | zero =>
    intro isv jsv k
    rw [KolamDrawV2.generate_single_path]
    simp
  | succ n ih =>
    intro isv jsv k
    rw [KolamDrawV2.generate_single_path]
    dsimp only
    repeat' split
    all_goals
      simp
    all_goals
      exact ih _ _ _

/-- Marking a stroke visited never clears an already-set cell of the
visited matrix. -/
theorem markVisited_pres (ND : ℕ) :
    ∀ (path : List (ℤ × ℤ)) (v : ℤ → ℤ → Bool) (i j : ℤ),
      v i j = true → KolamDrawV2.markVisited ND v path i j = true := by
  intro path
  induction path with
  | nil =>
    intro v i j h
    exact h
  | cons q qs ih =>
    intro v i j h
    have step : KolamDrawV2.markVisited ND v (q :: qs)
        = KolamDrawV2.markVisited ND
            (if 0 ≤ q.1 ∧ q.1 ≤ (ND : ℤ) ∧ 0 ≤ q.2 ∧ q.2 ≤ (ND : ℤ) then
               fun a b => if a = q.1 ∧ b = q.2 then true else v a b
             else v) qs := rfl
    rw [step]
    apply ih
    split
    · dsimp only
      split
      · rfl
      · exact h
    · exact h

/-- Every in-bounds point of a stroke is set in the visited matrix
after the mark-visited loop ran on the stroke. -/
theorem markVisited_mem (ND : ℕ) :
    ∀ (path : List (ℤ × ℤ)) (v : ℤ → ℤ → Bool) (p : ℤ × ℤ),
      p ∈ path → 0 ≤ p.1 → p.1 ≤ (ND : ℤ) → 0 ≤ p.2 → p.2 ≤ (ND : ℤ) →
      KolamDrawV2.markVisited ND v path p.1 p.2 = true := by
  intro path
  induction path with
  | nil =>
    intro v p hp
    exact absurd hp (List.not_mem_nil p)
  | cons q qs ih =>
    intro v p hp h1 h2 h3 h4
    have step : KolamDrawV2.markVisited ND v (q :: qs)
        = KolamDrawV2.markVisited ND
            (if 0 ≤ q.1 ∧ q.1 ≤ (ND : ℤ) ∧ 0 ≤ q.2 ∧ q.2 ≤ (ND : ℤ) then
               fun a b => if a = q.1 ∧ b = q.2 then true else v a b
             else v) qs := rfl
    rcases List.mem_cons.mp hp with he | hm
    · subst he
      rw [step]
      apply markVisited_pres
      rw [if_pos ⟨h1, h2, h3, h4⟩]
      rw [if_pos ⟨rfl, rfl⟩]
    · rw [step]
      exact ih _ p hm h1 h2 h3 h4

/-- One step of the V2 start-cell scan preserves the scan
invariant. -/
theorem processCell_inv (ND : ℕ) (sigmaref : ℚ) (rnd : ℕ → ℕ)
    (s : KolamDrawV2.ScanState) (c : ℤ × ℤ) (h : ScanInv ND s) :
    ScanInv ND (KolamDrawV2.processCell ND sigmaref rnd s c) := by
  rw [KolamDrawV2.processCell]
  split
  · exact h
  · split
    · exact h
    · rename_i hcount hskip
      dsimp only
      split
      · rename_i hlen
        obtain ⟨h1, h2, h3, h4, h5, h6⟩ := h
        have hmem := gsp_mem ND (KolamDrawV2.ResetGateMatrix ND).1
          (KolamDrawV2.ResetGateMatrix ND).2 s.visited sigmaref rnd
          (KolamDrawV2.Ns ND / 4) c.1 c.2 s.k
        refine ⟨?_, ?_, ?_, ?_, ?_, ?_⟩
        · intro st hst p hp
          rcases List.mem_append.mp hst with hold | hnew
          · exact markVisited_pres ND _ s.visited p.1 p.2 (h1 st hold p hp)
          · have hst2 : st = _ := List.mem_singleton.mp hnew
            subst hst2
            have hb := hmem p hp
            exact markVisited_mem ND _ s.visited p hp (by omega) (by omega)
              (by omega) (by omega)
        · rw [List.pairwise_append]
          refine ⟨h2, List.pairwise_singleton _ _, ?_⟩
          intro a ha b hb
          have hb2 : b = _ := List.mem_singleton.mp hb
          subst hb2
          intro p hpa hpb
          have hv1 : s.visited p.1 p.2 = true := h1 a ha p hpa
          have hv2 : s.visited p.1 p.2 = false := (hmem p hpb).2.2.2.2.1
          rw [hv1] at hv2
          exact Bool.noConfusion hv2
        · dsimp only
          rw [List.flatten_append, h3]
          simp
        · intro p hp
          rcases List.mem_append.mp hp with hold | hnew
          · exact h4 p hold
          · have hb := hmem p hnew
            exact ⟨hb.1, hb.2.1, hb.2.2.1, hb.2.2.2.1⟩
        · dsimp only
          omega
        · dsimp only
          simp [h6]
      · exact h

/-- The scan invariant is preserved along the whole fold over the
start cells. -/
theorem scan_foldl_inv (ND : ℕ) (sigmaref : ℚ) (rnd : ℕ → ℕ) :
    ∀ (l : List (ℤ × ℤ)) (s : KolamDrawV2.ScanState), ScanInv ND s →
      ScanInv ND (l.foldl (KolamDrawV2.processCell ND sigmaref rnd) s) := by
  intro l
  induction l with
  | nil =>
    intro s h
    exact h
  | cons c cs ih =>
    intro s h
    rw [List.foldl_cons]
    exact ih _ (processCell_inv ND sigmaref rnd s c h)

/-- The final state of the V2 start-cell scan satisfies the scan
invariant. -/
theorem scanFinal_inv (ND : ℕ) (sigmaref : ℚ) (rnd : ℕ → ℕ) :
    ScanInv ND (KolamDrawV2.scanFinal ND sigmaref rnd) := by
  apply scan_foldl_inv
  refine ⟨?_, List.Pairwise.nil, rfl, ?_, Nat.zero_le _, rfl⟩
  · intro st hst
    exact absurd hst (List.not_mem_nil st)
  · intro p hp
    exact absurd hp (List.not_mem_nil p)

/-- Claim C1 counterexample: in KolamDrawV2.ResetGateMatrix the
diagonal cell (1,1) of the gate matrix holds 1, not 0, already for
ND = 4 - the claimed zeroing of the GateMatrix diagonals is false. -/
theorem c1_counterexample :
    (KolamDrawV2.ResetGateMatrix 4).1 1 1 = 1 ∧
    ¬ (KolamDrawV2.ResetGateMatrix 4).1 1 1 = 0 := by
  decide

/-- Claim C1 (amended): for every grid dimension ND, besides the
zeroed boundary rows and columns, KolamDrawV2.ResetGateMatrix sets
both main diagonals - cells (i,i) and (i, ND-i) for 1 <= i <= ND-1 -
to GateMatrix value 1 (open fixed-constraint cells, not 0), and sets
the corresponding FlagMatrix entries to 0. -/
theorem c1_diagonals (ND : ℕ) (i : ℤ) (h1 : 1 ≤ i) (h2 : i ≤ (ND : ℤ) - 1) :
    (KolamDrawV2.ResetGateMatrix ND).1 i i = 1 ∧
    (KolamDrawV2.ResetGateMatrix ND).1 i ((ND : ℤ) - i) = 1 ∧
    (KolamDrawV2.ResetGateMatrix ND).2 i i = 0 ∧
    (KolamDrawV2.ResetGateMatrix ND).2 i ((ND : ℤ) - i) = 0 := by
  rw [KolamDrawV2.ResetGateMatrix]
  refine ⟨?_, ?_, ?_, ?_⟩ <;>
    · dsimp only
      rw [if_neg (by omega), if_pos (by omega)]

/-- Claim C1 witness: the amended statement evaluated at ND = 4 and
i = 1. -/
theorem c1_witness :
    (KolamDrawV2.ResetGateMatrix 4).1 1 (((4 : ℕ) : ℤ) - 1) = 1 ∧
    (KolamDrawV2.ResetGateMatrix 4).2 1 1 = 0 :=
  ⟨(c1_diagonals 4 1 (by norm_num) (by norm_num)).2.1,
   (c1_diagonals 4 1 (by norm_num) (by norm_num)).2.2.1⟩

/-- Claim C2 counterexample: for ND = 4, a toss-always-failing random
stream and bias 1, the very first stroke grown by
KolamDrawV2.generate_single_path from start cell (1,1) with the fresh
matrices and an all-false visited matrix revisits cells, so one V2
stroke can contain duplicate positions. -/
theorem c2_counterexample :
    ¬ (KolamDrawV2.generate_single_path 4 (KolamDrawV2.ResetGateMatrix 4).1
        (KolamDrawV2.ResetGateMatrix 4).2 (fun _ _ => false) 1 (fun _ => 0)
        (KolamDrawV2.Ns 4 / 4) 1 1 0).1.Nodup := by
  with_unfolding_all decide

/-- Claim C2 (amended): for every ND, matrices, bias and random
stream, a stroke grown by KolamDrawV2.generate_single_path never
contains a cell that was already marked in the visited matrix the
stroke was started with; within one stroke, however, positions may
repeat (the stroke need not be self-avoiding). -/
theorem c2_stroke_avoids_visited (ND : ℕ) (A F : ℤ → ℤ → ℕ)
    (visited : ℤ → ℤ → Bool) (sigmaref : ℚ) (rnd : ℕ → ℕ)
    (fuel : ℕ) (isv jsv : ℤ) (k : ℕ) :
    ∀ p ∈ (KolamDrawV2.generate_single_path ND A F visited sigmaref rnd
      fuel isv jsv k).1, visited p.1 p.2 = false :=
  fun p hp =>
    (gsp_mem ND A F visited sigmaref rnd fuel isv jsv k p hp).2.2.2.2.1

/-- Claim C2 witness: the amended statement applied to the concrete
ND = 4 stroke grown from (1,1) over the all-false visited matrix, at
its member point (1,1). -/
theorem c2_witness : (fun (_ _ : ℤ) => false) (1 : ℤ) (1 : ℤ) = false :=
  c2_stroke_avoids_visited 4 (KolamDrawV2.ResetGateMatrix 4).1
    (KolamDrawV2.ResetGateMatrix 4).2 (fun _ _ => false) 1 (fun _ => 0)
    (KolamDrawV2.Ns 4 / 4) 1 1 0 (1, 1) (by decide)

/-- Claim C6: KolamDrawV2.toss has the same toss(bias) semantics as
KolamDrawV1.toss: V2's toss on a stream draw r equals V1's toss
applied to the quantized uniform draw (r mod 1000)/1000, and each coin
returns success (1) exactly when its uniform draw exceeds the bias. -/
theorem c6_toss_equivalence (bias u : ℚ) (r : ℕ) :
    KolamDrawV2.toss bias r
        = KolamDrawV1.toss bias (((r % 1000 : ℕ) : ℚ) / 1000) ∧
    (KolamDrawV1.toss bias u = 1 ↔ u > bias) ∧
    (KolamDrawV2.toss bias r = 1 ↔ ((r % 1000 : ℕ) : ℚ) / 1000 > bias) := by
  refine ⟨rfl, ?_, ?_⟩ <;>
    · simp only [KolamDrawV1.toss, KolamDrawV2.toss]
      split <;> simp_all

/-- Claim C6 witness: at bias 1/2 the V2 coin succeeds on the stream
draw 999. -/
theorem c6_witness : KolamDrawV2.toss (1 / 2) 999 = 1 :=
  (c6_toss_equivalence (1 / 2) 0 999).2.2.mpr (by norm_num)

/-- Claim C3: for every ND in [4,20], every complexity bias and every
random stream, every point of the path returned by
KolamDrawV1.generate_path - the fallback point included - satisfies
the diamond boundary predicate |i - ND/2| + |j - ND/2| <= ND/2 with
integer division. -/
theorem c3_v1_boundary (ND : ℕ) (sigmaref : ℚ) (rnd : ℕ → ℚ)
    (h4 : 4 ≤ ND) (h20 : ND ≤ 20) :
    ∀ p ∈ KolamDrawV1.generate_path ND sigmaref rnd,
      |p.1 - (ND : ℤ) / 2| + |p.2 - (ND : ℤ) / 2| ≤ (ND : ℤ) / 2 := by
  intro p hp
  rw [KolamDrawV1.generate_path] at hp
  split at hp
  · have hp2 : p = ((ND : ℤ) / 2, (ND : ℤ) / 2) := List.mem_singleton.mp hp
    subst hp2
    simp only [sub_self, abs_zero, add_zero]
    omega
  · rw [KolamDrawV1.rawPath] at hp
    have hin := v1Loop_mem ND (KolamDrawV1.ResetGateMatrix ND).1 sigmaref rnd
      (KolamDrawV1.Ns ND) ((ND : ℤ) / 2) ((ND : ℤ) / 2) 0 [] 0
      (by intro q hq; exact absurd hq (List.not_mem_nil q)) p hp
    rw [KolamDrawV1.is_inside_boundary] at hin
    exact of_decide_eq_true hin

/-- Claim C3 witness: the boundary predicate holds for the start point
(2,2) of the concrete V1 path at ND = 4, bias 1 and the all-zero
stream. -/
theorem c3_witness :
    |(2 : ℤ) - ((4 : ℕ) : ℤ) / 2| + |(2 : ℤ) - ((4 : ℕ) : ℤ) / 2|
      ≤ ((4 : ℕ) : ℤ) / 2 :=
  c3_v1_boundary 4 1 (fun _ => 0) (by norm_num) (by norm_num) (2, 2)
    (by with_unfolding_all decide)

/-- Claim C4: generate_path of both walkers never returns an empty
sequence, and whenever no point is recorded (V1) or no stroke is
accepted (V2) the result is exactly the single-point path
[[ND/2, ND/2]] at the grid center. -/
theorem c4_nonempty_fallback (ND : ℕ) (s1 s2 : ℚ) (r1 : ℕ → ℚ) (r2 : ℕ → ℕ) :
    KolamDrawV1.generate_path ND s1 r1 ≠ [] ∧
    KolamDrawV2.generate_path ND s2 r2 ≠ [] ∧
    (KolamDrawV1.rawPath ND s1 r1 = [] →
      KolamDrawV1.generate_path ND s1 r1 = [((ND : ℤ) / 2, (ND : ℤ) / 2)]) ∧
    ((KolamDrawV2.scanFinal ND s2 r2).all_paths = [] →
      KolamDrawV2.generate_path ND s2 r2 = [((ND : ℤ) / 2, (ND : ℤ) / 2)]) := by
  refine ⟨?_, ?_, ?_, ?_⟩
  · rw [KolamDrawV1.generate_path]
    split
    · simp
    · rename_i h
      exact h
  · rw [KolamDrawV2.generate_path]
    split
    · simp
    · rename_i h
      exact h
  · intro he
    rw [KolamDrawV1.generate_path, if_pos he]
  · intro he
    rw [KolamDrawV2.generate_path, if_pos he]

/-- Claim C4 witness: at ND = 2 the V2 scan accepts no stroke and
generate_path returns exactly the center singleton; the V1 result at
ND = 2 is nonempty as well. -/
theorem c4_witness :
    KolamDrawV2.generate_path 2 1 (fun _ => 0)
        = [(((2 : ℕ) : ℤ) / 2, ((2 : ℕ) : ℤ) / 2)] ∧
    KolamDrawV1.generate_path 2 1 (fun _ => 0) ≠ [] :=
  ⟨(c4_nonempty_fallback 2 1 1 (fun _ => 0) (fun _ => 0)).2.2.2
     (by with_unfolding_all decide),
   (c4_nonempty_fallback 2 1 1 (fun _ => 0) (fun _ => 0)).1⟩

/-- Claim C5: during the V2 scan, a grown stroke is accepted iff it is
longer than 3 points; an accepted stroke is appended to the
accumulated path, counted, recorded and all of its cells are marked
visited, while a stroke of length at most 3 is discarded entirely -
the accumulated path, the stroke counter, the recorded strokes and
the visited matrix are unchanged by a rejected attempt. -/
theorem c5_stroke_acceptance (ND : ℕ) (sigmaref : ℚ) (rnd : ℕ → ℕ)
    (s : KolamDrawV2.ScanState) (c : ℤ × ℤ) (pr : List (ℤ × ℤ) × ℕ)
    (hpr : pr = KolamDrawV2.generate_single_path ND
      (KolamDrawV2.ResetGateMatrix ND).1 (KolamDrawV2.ResetGateMatrix ND).2
      s.visited sigmaref rnd (KolamDrawV2.Ns ND / 4) c.1 c.2 s.k)
    (hcount : s.stroke_count < min 10 ND)
    (hvis : s.visited c.1 c.2 = false)
    (hopen : (KolamDrawV2.ResetGateMatrix ND).1 c.1 c.2 ≠ 0) :
    (3 < pr.1.length →
      (KolamDrawV2.processCell ND sigmaref rnd s c).all_paths
          = s.all_paths ++ pr.1 ∧
      (KolamDrawV2.processCell ND sigmaref rnd s c).stroke_count
          = s.stroke_count + 1 ∧
      (KolamDrawV2.processCell ND sigmaref rnd s c).strokes
          = s.strokes ++ [pr.1] ∧
      (KolamDrawV2.processCell ND sigmaref rnd s c).visited
          = KolamDrawV2.markVisited ND s.visited pr.1 ∧
      ∀ p ∈ pr.1,
        (KolamDrawV2.processCell ND sigmaref rnd s c).visited p.1 p.2 = true) ∧
    (pr.1.length ≤ 3 →
      (KolamDrawV2.processCell ND sigmaref rnd s c).all_paths = s.all_paths ∧
      (KolamDrawV2.processCell ND sigmaref rnd s c).stroke_count
          = s.stroke_count ∧
      (KolamDrawV2.processCell ND sigmaref rnd s c).strokes = s.strokes ∧
      (KolamDrawV2.processCell ND sigmaref rnd s c).visited = s.visited) := by
  subst hpr
  rw [KolamDrawV2.processCell]
  rw [if_neg (by omega)]
  rw [if_neg (by
    intro hd
    rcases hd with hd | hd
    · rw [hvis] at hd
      exact Bool.noConfusion hd
    · exact hopen hd)]
  dsimp only
  split
  · rename_i hacc
    constructor
    · intro _
      refine ⟨rfl, rfl, rfl, rfl, ?_⟩
      intro p hp
      have hb := gsp_mem ND (KolamDrawV2.ResetGateMatrix ND).1
        (KolamDrawV2.ResetGateMatrix ND).2 s.visited sigmaref rnd
        (KolamDrawV2.Ns ND / 4) c.1 c.2 s.k p hp
      exact markVisited_mem ND _ s.visited p hp (by omega) (by omega)
        (by omega) (by omega)
    · intro hle
      omega
  · rename_i hrej
    constructor
    · intro hacc
      omega
    · intro _
      exact ⟨rfl, rfl, rfl, rfl⟩

/-- Claim C5 witness: the first stroke of the ND = 4 scan from (1,1)
has 9 points, is accepted, and increments the stroke counter. -/
theorem c5_witness :
    (KolamDrawV2.processCell 4 1 (fun _ => 0) KolamDrawV2.initialScanState
      (1, 1)).stroke_count = KolamDrawV2.initialScanState.stroke_count + 1 :=
  ((c5_stroke_acceptance 4 1 (fun _ => 0) KolamDrawV2.initialScanState (1, 1)
    _ rfl (by decide) (by decide) (by decide)).1
    (by with_unfolding_all decide)).2.1

/-- Claim C7: for every ND in [4,20], bias and random stream, the V1
walk appends at most Ns = (2*ND^2+1)*5 points (fallback included),
every V2 stroke growth - run with fuel Ns/4 where Ns = 2*(ND^2+1)+5 -
yields at most Ns/4 points, and at most min(10, ND) strokes are grown
to acceptance. -/
theorem c7_step_bounds (ND : ℕ) (s1 s2 : ℚ) (r1 : ℕ → ℚ) (r2 : ℕ → ℕ)
    (h4 : 4 ≤ ND) (h20 : ND ≤ 20) :
    (KolamDrawV1.generate_path ND s1 r1).length ≤ KolamDrawV1.Ns ND ∧
    (∀ (visited : ℤ → ℤ → Bool) (i j : ℤ) (k : ℕ),
      (KolamDrawV2.generate_single_path ND (KolamDrawV2.ResetGateMatrix ND).1
        (KolamDrawV2.ResetGateMatrix ND).2 visited s2 r2
        (KolamDrawV2.Ns ND / 4) i j k).1.length ≤ KolamDrawV2.Ns ND / 4) ∧
    (KolamDrawV2.scanFinal ND s2 r2).strokes.length ≤ min 10 ND := by
  refine ⟨?_, ?_, ?_⟩
  · have hN : 0 < KolamDrawV1.Ns ND := by
      rw [KolamDrawV1.Ns]
      positivity
    rw [KolamDrawV1.generate_path]
    split
    · simpa using hN
    · rw [KolamDrawV1.rawPath]
      have hlen := v1Loop_len ND (KolamDrawV1.ResetGateMatrix ND).1 s1 r1
        (KolamDrawV1.Ns ND) ((ND : ℤ) / 2) ((ND : ℤ) / 2) 0 [] 0
      simpa using hlen
  · intro visited i j k
    exact gsp_len ND _ _ visited s2 r2 _ i j k
  · have hinv := scanFinal_inv ND s2 r2
    rw [← hinv.2.2.2.2.2]
    exact hinv.2.2.2.2.1

/-- Claim C7 witness: the bounds instantiated at ND = 4, bias 1 and
all-zero streams. -/
theorem c7_witness :
    (KolamDrawV1.generate_path 4 1 (fun _ => 0)).length ≤ KolamDrawV1.Ns 4 ∧
    (KolamDrawV2.scanFinal 4 1 (fun _ => 0)).strokes.length ≤ min 10 4 :=
  ⟨(c7_step_bounds 4 1 1 (fun _ => 0) (fun _ => 0) (by norm_num)
      (by norm_num)).1,
   (c7_step_bounds 4 1 1 (fun _ => 0) (fun _ => 0) (by norm_num)
      (by norm_num)).2.2⟩

/-- Claim C8: the V2 scan accepts at most min(10, ND) strokes: the
stroke counter counts exactly the accepted strokes, never exceeds
min(10, ND), and once it has reached min(10, ND) processing any
further start cell leaves the scan state untouched. -/
theorem c8_stroke_cap (ND : ℕ) (sigmaref : ℚ) (rnd : ℕ → ℕ) :
    (KolamDrawV2.scanFinal ND sigmaref rnd).stroke_count ≤ min 10 ND ∧
    (KolamDrawV2.scanFinal ND sigmaref rnd).stroke_count
        = (KolamDrawV2.scanFinal ND sigmaref rnd).strokes.length ∧
    (∀ (s : KolamDrawV2.ScanState) (c : ℤ × ℤ),
      min 10 ND ≤ s.stroke_count →
      KolamDrawV2.processCell ND sigmaref rnd s c = s) := by
  have hinv := scanFinal_inv ND sigmaref rnd
  refine ⟨hinv.2.2.2.2.1, hinv.2.2.2.2.2, ?_⟩
  intro s c h
  rw [KolamDrawV2.processCell, if_pos h]

/-- Claim C8 witness: a state whose counter already reached
max_strokes = min(10, 4) is left untouched by a further cell. -/
theorem c8_witness :
    KolamDrawV2.processCell 4 1 (fun _ => 0)
      { all_paths := [], visited := fun _ _ => false, stroke_count := 10,
        k := 0, strokes := [] } (1, 1)
      = { all_paths := [], visited := fun _ _ => false, stroke_count := 10,
          k := 0, strokes := [] } :=
  (c8_stroke_cap 4 1 (fun _ => 0)).2.2 _ (1, 1) (by decide)

/-- Claim C9: within a single V2 run no two accepted strokes share a
point, and every point of an accepted stroke is marked in the final
visited matrix. -/
theorem c9_visited_exclusivity (ND : ℕ) (sigmaref : ℚ) (rnd : ℕ → ℕ) :
    List.Pairwise StrokesDisjoint
      (KolamDrawV2.scanFinal ND sigmaref rnd).strokes ∧
    (KolamDrawV2.scanFinal ND sigmaref rnd).all_paths.all
      (fun p => (KolamDrawV2.scanFinal ND sigmaref rnd).visited p.1 p.2)
        = true := by
  have hinv := scanFinal_inv ND sigmaref rnd
  refine ⟨hinv.2.1, ?_⟩
  rw [List.all_eq_true]
  intro p hp
  rw [hinv.2.2.1] at hp
  rcases List.mem_flatten.mp hp with ⟨st, hst, hpst⟩
  exact hinv.1 st hst p hpst

/-- Claim C10: every point of a non-fallback V2 path is strictly
interior to the lattice: 1 <= i <= ND-1 and 1 <= j <= ND-1. -/
theorem c10_interior (ND : ℕ) (sigmaref : ℚ) (rnd : ℕ → ℕ)
    (h : (KolamDrawV2.scanFinal ND sigmaref rnd).all_paths ≠ []) :
    ∀ p ∈ KolamDrawV2.generate_path ND sigmaref rnd,
      1 ≤ p.1 ∧ p.1 ≤ (ND : ℤ) - 1 ∧ 1 ≤ p.2 ∧ p.2 ≤ (ND : ℤ) - 1 := by
  intro p hp
  rw [KolamDrawV2.generate_path, if_neg h] at hp
  have hb := (scanFinal_inv ND sigmaref rnd).2.2.2.1 p hp
  omega

set_option maxHeartbeats 2000000 in
/-- Claim C10 witness: the interiority bounds at the member point
(1,1) of the nonempty ND = 3 run. -/
theorem c10_witness :
    1 ≤ (1 : ℤ) ∧ (1 : ℤ) ≤ ((3 : ℕ) : ℤ) - 1 ∧
    1 ≤ (1 : ℤ) ∧ (1 : ℤ) ≤ ((3 : ℕ) : ℤ) - 1 :=
  c10_interior 3 1 (fun _ => 0) (by with_unfolding_all decide) (1, 1)
    (by with_unfolding_all decide)
